import Mathlib

/-!
Dependency-update-tool detection (`checks/raw/dependency_update_tool.go`)

A shallow embedding of the raw check that looks for dependency-update tooling:
the file visitor `checkDependencyFileExists` and the orchestrator
`DependencyUpdateTool`, together with the small part of the Go runtime and of
the neighbouring packages that they use.

Conventions of the embedding.

* A Go `error` is an `Option GoError` (`none` is `nil`).
* A `*string` is an `Option String` (`none` is `nil`).
* A slice is a `List`; `append(s, x)` is `s ++ [x]`.
* A pointer argument is carried as the value it points to; a function that
  writes through its pointer arguments returns their values after the call.
* Declarations that the source file uses but whose definitions live in packages
  outside `src/` (the Unicode case tables, two constants) are gathered in `Env`
  and passed explicitly, so every statement holds for all their values.
-/

/-! ## Go runtime: errors -/

namespace errors

/-- A value made by `errors.New`, of Go type `*errors.errorString`: a pointer,
whose address `addr` is its identity, to the message `s`. Two calls of
`errors.New` with the same message give two values with different
addresses. -/
structure errorString where
  addr : Nat
  s : String
  deriving DecidableEq

end errors

/-- An error value: either a value made by `errors.New`, or the result of
`fmt.Errorf` with one `%w` verb, which stores the formatted message next to
the wrapped error. -/
inductive GoError where
  | new (e : errors.errorString)
  | wrapError (msg : String) (err : GoError)
  deriving DecidableEq

namespace GoError

/-- The `Error()` method. -/
def Error : GoError → String
  | new e => e.s
  | wrapError msg _ => msg

/-- The `Unwrap()` method (`nil` for a sentinel). -/
def Unwrap : GoError → Option GoError
  | new _ => none
  | wrapError _ err => some err

end GoError

namespace fmt

/-- The call `fmt.Errorf(pre + "%w", err)`: the message is `pre` followed by
the message of `err`, and the result unwraps to `err`. -/
def Errorf (pre : String) (err : GoError) : GoError :=
  GoError.wrapError (pre ++ err.Error) err

end fmt

namespace errors

/-- The function `errors.Is` for a target made by `errors.New` (the only kind
of target in this file): walks the `Unwrap` chain of `err` and compares each
error with `target` by `==`, which on pointers is identity. A value made by
`fmt.Errorf` is a pointer of another type and is never equal to the target;
a value made by `errors.New` is equal to it exactly when it is the same
pointer, whatever its message. -/
def Is : GoError → errorString → Bool
  | GoError.new e, target => decide (e.addr = target.addr)
  | GoError.wrapError _ err, target => Is err target

end errors

/-! ## Go runtime: lower-casing -/

/-- Declarations used by the source whose definitions are outside `src/`:
the Unicode lower-case mapping for runes above `MaxASCII`
(`unicode.To(unicode.LowerCase, r)`), and the two constants written into
every file-evidence entry. -/
structure Env where
  lowerCase : Char → Char
  FileTypeSource : Int
  OffsetDefault : Nat

namespace unicode

/-- The function `unicode.ToLower`: ASCII letters are shifted by `'a' - 'A'`,
other ASCII runes are kept, the rest goes through the case tables. -/
def ToLower (E : Env) (r : Char) : Char :=
  if r.toNat ≤ 0x7F then
    if 'A'.toNat ≤ r.toNat ∧ r.toNat ≤ 'Z'.toNat then Char.ofNat (r.toNat + ('a'.toNat - 'A'.toNat))
    else r
  else E.lowerCase r

end unicode

namespace strings

/-- The function `strings.ToLower`: every rune mapped by `unicode.ToLower`. -/
def ToLower (E : Env) (s : String) : String :=
  String.mk (s.data.map (unicode.ToLower E))

end strings

/-! ## Data model (`checker`, `clients`) -/

namespace checker

/-- One evidence entry, `checker.File` (the fields this check sets; `Type_` is
the Go field `Type`). -/
structure File where
  Path : String := ""
  Type_ : Int := 0
  Offset : Nat := 0
  deriving DecidableEq

/-- A detected tool, `checker.Tool`. -/
structure Tool where
  Name : String
  URL : Option String
  Desc : Option String
  Files : List File
  deriving DecidableEq

/-- The result, `checker.DependencyUpdateToolData`. -/
structure DependencyUpdateToolData where
  Tools : List Tool := []
  deriving DecidableEq

end checker

namespace clients

/-- The account behind a commit, `clients.User` (the field this check reads). -/
structure User where
  ID : Int
  deriving DecidableEq

/-- A commit, `clients.Commit` (the field this check reads). -/
structure Commit where
  Committer : User
  deriving DecidableEq

/-- The query of `SearchCommits`. -/
structure SearchCommitsOptions where
  Author : String
  deriving DecidableEq

/-- Modelled from the spec: the sentinel `clients.ErrUnsupportedFeature`, the
"unsupported feature" indicator of a backend that cannot search commits; a
package-level value made once by `errors.New`. -/
def ErrUnsupportedFeature : errors.errorString := ⟨1, "unsupported feature"⟩

/-- Modelled from the spec: the repository-access collaborator
`clients.RepoClient`. File enumeration (`ListFiles`) yields the paths `files`
and then either ends (`filesErr = none`) or fails with `filesErr`; commit
search returns a commit sequence and an error. -/
structure RepoClient where
  files : List String
  filesErr : Option GoError
  SearchCommits : SearchCommitsOptions → List Commit × Option GoError

end clients

/-! ## The generic visitor interface (`fileparser`) -/

/-- A value passed through `args ...interface{}`: a `*[]checker.Tool`
(carried as the slice it points to) or a value of any other dynamic type. -/
inductive Arg where
  | ptrTools (tools : List checker.Tool)
  | other (tag : Nat)
  deriving DecidableEq

namespace fileparser

/-- The type `fileparser.DoWhileTrueOnFilename`: the visitor returns the
arguments after the call, whether to continue, and an error. -/
abbrev DoWhileTrueOnFilename := String → List Arg → List Arg × Bool × Option GoError

/-- The visiting loop: call the visitor on each path in turn, stop at the
first call that returns an error or `false`. The middle component tells
whether every path was visited with `true`. -/
def doWhileTrue (onFile : DoWhileTrueOnFilename) :
    List String → List Arg → List Arg × Bool × Option GoError
  | [], args => (args, true, none)
  | name :: rest, args =>
      match onFile name args with
      | (args1, _, some err) => (args1, false, some err)
      | (args1, false, none) => (args1, false, none)
      | (args1, true, none) => doWhileTrue onFile rest args1

/-- Modelled from the spec: `fileparser.OnAllFilesDo`, which invokes the
visitor once per enumerated path with the argument bundle, stops only when the
visitor returns `false` or an error or when all files are visited, and reports
a failure of the enumeration itself wrapped with the context that names the
phase, `error during ListFiles: `. An error of the visitor is returned as it
is. -/
def OnAllFilesDo (c : clients.RepoClient) (onFile : DoWhileTrueOnFilename)
    (args : List Arg) : List Arg × Option GoError :=
  match doWhileTrue onFile c.files args with
  | (args1, _, some err) => (args1, some err)
  | (args1, false, none) => (args1, none)
  | (args1, true, none) =>
      match c.filesErr with
      | some err => (args1, some (fmt.Errorf "error during ListFiles: " err))
      | none => (args1, none)

end fileparser

/-! ## The check (`package raw`) -/

namespace raw

/-- Modelled from the spec: the sentinel `errInvalidArgLength` of the
"invalid argument" family (wrong number of arguments). -/
def errInvalidArgLength : GoError := GoError.new ⟨2, "invalid argument length"⟩

/-- Modelled from the spec: the sentinel `errInvalidArgType` of the
"invalid argument" family (wrong dynamic type). -/
def errInvalidArgType : GoError := GoError.new ⟨3, "invalid argument type"⟩

/-- The constant `dependabotID`. -/
def dependabotID : Int := 49699333

/-- The helper `asPointer`: a non-nil pointer to a copy of `s`. -/
def asPointer (s : String) : Option String := some s

/-- The file visitor `checkDependencyFileExists`. -/
def checkDependencyFileExists (E : Env) : fileparser.DoWhileTrueOnFilename :=
  fun name args =>
    if args.length ≠ 1 then
      (args, false,
        some (fmt.Errorf "checkDependencyFileExists requires exactly one argument: "
          errInvalidArgLength))
    else
      match args with
      | [Arg.ptrTools ptools] =>
          let lower := strings.ToLower E name
          if lower ∈ [".github/dependabot.yml", ".github/dependabot.yaml"] then
            ([Arg.ptrTools (ptools ++ [{
                Name := "Dependabot"
                URL := asPointer "https://github.com/dependabot"
                Desc := asPointer "Automated dependency updates built into GitHub"
                Files := [{ Path := name, Type_ := E.FileTypeSource,
                            Offset := E.OffsetDefault }] }])],
              true, none)
          else if lower ∈ ["renovate.json", "renovate.json5", ".github/renovate.json",
              ".github/renovate.json5", ".gitlab/renovate.json", ".gitlab/renovate.json5",
              ".renovaterc", ".renovaterc.json", ".renovaterc.json5"] then
            ([Arg.ptrTools (ptools ++ [{
                Name := "RenovateBot"
                URL := asPointer "https://github.com/renovatebot/renovate"
                Desc := asPointer
                  "Automated dependency updates. Multi-platform and multi-language."
                Files := [{ Path := name, Type_ := E.FileTypeSource,
                            Offset := E.OffsetDefault }] }])],
              true, none)
          else if lower ∈ [".pyup.yml"] then
            ([Arg.ptrTools (ptools ++ [{
                Name := "PyUp"
                URL := asPointer "https://pyup.io/"
                Desc := asPointer "Automated dependency updates for Python."
                Files := [{ Path := name, Type_ := E.FileTypeSource,
                            Offset := E.OffsetDefault }] }])],
              true, none)
          else if lower ∈ [".scala-steward.conf", "scala-steward.conf",
              ".github/.scala-steward.conf", ".github/scala-steward.conf",
              ".config/.scala-steward.conf", ".config/scala-steward.conf"] then
            ([Arg.ptrTools (ptools ++ [{
                Name := "scala-steward"
                URL := asPointer "https://github.com/scala-steward-org/scala-steward"
                Desc := asPointer "Works with Maven, Mill, sbt, and Scala CLI."
                Files := [{ Path := name, Type_ := E.FileTypeSource,
                            Offset := E.OffsetDefault }] }])],
              true, none)
          else
            ([Arg.ptrTools ptools], true, none)
      | _ =>
          (args, false,
            some (fmt.Errorf
              "checkDependencyFileExists requires an argument of type: *[]checker.Tool: "
              errInvalidArgType))

/-- The slice behind the pointer that `DependencyUpdateTool` passed as the
single argument, read back after the traversal. -/
def derefTools : List Arg → List checker.Tool
  | [Arg.ptrTools tools] => tools
  | _ => []

/-- The loop over the returned commits: the first commit whose committer is
the Dependabot account appends one tool and ends the loop. -/
def scanCommits (tools : List checker.Tool) : List clients.Commit → List checker.Tool
  | [] => tools
  | commit :: rest =>
      if commit.Committer.ID = dependabotID then
        tools ++ [{
          Name := "Dependabot"
          URL := asPointer "https://github.com/dependabot"
          Desc := asPointer "Automated dependency updates built into GitHub"
          Files := [{}] }]
      else scanCommits tools rest

/-- The exported entry point `DependencyUpdateTool`. -/
def DependencyUpdateTool (E : Env) (c : clients.RepoClient) :
    checker.DependencyUpdateToolData × Option GoError :=
  match fileparser.OnAllFilesDo c (checkDependencyFileExists E) [Arg.ptrTools []] with
  | (_, some err) => ({}, some (fmt.Errorf "" err))
  | (args, none) =>
      let tools := derefTools args
      if tools.length ≠ 0 then
        ({ Tools := tools }, none)
      else
        match c.SearchCommits { Author := "dependabot[bot]" } with
        | (_, some err) =>
            if errors.Is err clients.ErrUnsupportedFeature then
              ({ Tools := tools }, none)
            else
              ({}, some (fmt.Errorf "dependabot commit search: " err))
        | (commits, none) => ({ Tools := scanCommits tools commits }, none)

end raw

/-! ## Concrete instances used to run the definitions -/

/-- An environment for running the definitions: runes above `MaxASCII` are
left alone, and the two evidence constants are `1`. -/
def sampleEnv : Env := { lowerCase := fun r => r, FileTypeSource := 1, OffsetDefault := 1 }

/-! ## The claims' vocabulary -/

/-- The two Dependabot configuration paths of the table. -/
def dependabotPaths : List String := [".github/dependabot.yml", ".github/dependabot.yaml"]

/-- The nine RenovateBot configuration paths of the table. -/
def renovatePaths : List String :=
  ["renovate.json", "renovate.json5", ".github/renovate.json", ".github/renovate.json5",
   ".gitlab/renovate.json", ".gitlab/renovate.json5", ".renovaterc", ".renovaterc.json",
   ".renovaterc.json5"]

/-- The PyUp configuration path of the table. -/
def pyupPaths : List String := [".pyup.yml"]

/-- The six scala-steward configuration paths of the table. -/
def scalaStewardPaths : List String :=
  [".scala-steward.conf", "scala-steward.conf", ".github/.scala-steward.conf",
   ".github/scala-steward.conf", ".config/.scala-steward.conf", ".config/scala-steward.conf"]

/-- The recognized configuration paths: the four groups together. -/
def recognizedPaths : List String :=
  dependabotPaths ++ renovatePaths ++ pyupPaths ++ scalaStewardPaths

/-- A tool record with the given identity and one file-evidence entry for
`path`, tagged as source and carrying the default offset. -/
def fileTool (E : Env) (name url desc path : String) : checker.Tool :=
  { Name := name, URL := some url, Desc := some desc,
    Files := [{ Path := path, Type_ := E.FileTypeSource, Offset := E.OffsetDefault }] }

/-- The identity (name, URL, description) that the table gives to a
lower-cased recognized path. -/
def toolIdentity (lower : String) : String × String × String :=
  if lower ∈ dependabotPaths then
    ("Dependabot", "https://github.com/dependabot",
      "Automated dependency updates built into GitHub")
  else if lower ∈ renovatePaths then
    ("RenovateBot", "https://github.com/renovatebot/renovate",
      "Automated dependency updates. Multi-platform and multi-language.")
  else if lower ∈ pyupPaths then
    ("PyUp", "https://pyup.io/", "Automated dependency updates for Python.")
  else
    ("scala-steward", "https://github.com/scala-steward-org/scala-steward",
      "Works with Maven, Mill, sbt, and Scala CLI.")

/-- The record expected for a recognized file `p`: the identity of the group
of the lower-cased path, with `p` itself as the evidence. -/
def recordFor (E : Env) (p : String) : checker.Tool :=
  fileTool E (toolIdentity (strings.ToLower E p)).1 (toolIdentity (strings.ToLower E p)).2.1
    (toolIdentity (strings.ToLower E p)).2.2 p

/-- Whether the lower-cased path is one of the recognized paths. -/
def isRecognized (E : Env) (p : String) : Bool :=
  decide (strings.ToLower E p ∈ recognizedPaths)

/-- The records expected from a list of files: one per recognized file, in
the order of the list. -/
def recordsFor (E : Env) (files : List String) : List checker.Tool :=
  (files.filter (isRecognized E)).map (recordFor E)

/-- The synthetic record of the commit fallback. -/
def commitTool : checker.Tool :=
  { Name := "Dependabot", URL := some "https://github.com/dependabot",
    Desc := some "Automated dependency updates built into GitHub",
    Files := [{ Path := "", Type_ := 0, Offset := 0 }] }

/-- The records accumulated by the traversal of `files`, starting from the
empty accumulator that `DependencyUpdateTool` passes. -/
def scanFiles (E : Env) (files : List String) : List checker.Tool :=
  raw.derefTools
    (fileparser.doWhileTrue (raw.checkDependencyFileExists E) files [Arg.ptrTools []]).1

/-- The four tool identities: name, URL and description. -/
def knownIdentities : List (String × Option String × Option String) :=
  [("Dependabot", some "https://github.com/dependabot",
      some "Automated dependency updates built into GitHub"),
   ("RenovateBot", some "https://github.com/renovatebot/renovate",
      some "Automated dependency updates. Multi-platform and multi-language."),
   ("PyUp", some "https://pyup.io/", some "Automated dependency updates for Python."),
   ("scala-steward", some "https://github.com/scala-steward-org/scala-steward",
      some "Works with Maven, Mill, sbt, and Scala CLI.")]

/-- A well-formed record: one of the four identities (so URL and description
are present and are the ones of the name) and exactly one evidence entry. -/
def wellFormed (tool : checker.Tool) : Prop :=
  (tool.Name, tool.URL, tool.Desc) ∈ knownIdentities ∧ tool.Files.length = 1

/-- The prefixes `xs` of `l` that are followed by `sep`, that is, all `xs`
with `l = xs ++ sep :: ys` for some `ys`. -/
def prefixesBefore (sep : Char) : List Char → List (List Char)
  | [] => []
  | c :: l =>
      (if c = sep then [[]] else []) ++ (prefixesBefore sep l).map (fun xs => c :: xs)

/-- The directories under which the table lists configuration files, besides
the repository root. -/
def listedDirectories : List String := [".github", ".gitlab", ".config"]

/-! ## The file visitor on a well-typed call -/

theorem visit_dependabot (E : Env) (p : String) (acc : List checker.Tool)
    (h : strings.ToLower E p ∈ dependabotPaths) :
    raw.checkDependencyFileExists E p [Arg.ptrTools acc] =
      ([Arg.ptrTools (acc ++ [fileTool E "Dependabot" "https://github.com/dependabot"
          "Automated dependency updates built into GitHub" p])], true, none) := by
  simp only [dependabotPaths] at h
  simp [raw.checkDependencyFileExists, h, fileTool, raw.asPointer]

theorem visit_renovate (E : Env) (p : String) (acc : List checker.Tool)
    (h : strings.ToLower E p ∈ renovatePaths) :
    raw.checkDependencyFileExists E p [Arg.ptrTools acc] =
      ([Arg.ptrTools (acc ++ [fileTool E "RenovateBot" "https://github.com/renovatebot/renovate"
          "Automated dependency updates. Multi-platform and multi-language." p])],
        true, none) := by
  simp only [renovatePaths, List.mem_cons, List.mem_singleton, List.not_mem_nil, or_false] at h
  rcases h with h | h | h | h | h | h | h | h | h <;>
    simp [raw.checkDependencyFileExists, h, fileTool, raw.asPointer]

theorem visit_pyup (E : Env) (p : String) (acc : List checker.Tool)
    (h : strings.ToLower E p ∈ pyupPaths) :
    raw.checkDependencyFileExists E p [Arg.ptrTools acc] =
      ([Arg.ptrTools (acc ++ [fileTool E "PyUp" "https://pyup.io/"
          "Automated dependency updates for Python." p])], true, none) := by
  simp only [pyupPaths, List.mem_cons, List.mem_singleton, List.not_mem_nil, or_false] at h
  simp [raw.checkDependencyFileExists, h, fileTool, raw.asPointer]

theorem visit_scalaSteward (E : Env) (p : String) (acc : List checker.Tool)
    (h : strings.ToLower E p ∈ scalaStewardPaths) :
    raw.checkDependencyFileExists E p [Arg.ptrTools acc] =
      ([Arg.ptrTools (acc ++ [fileTool E "scala-steward"
          "https://github.com/scala-steward-org/scala-steward"
          "Works with Maven, Mill, sbt, and Scala CLI." p])], true, none) := by
  simp only [scalaStewardPaths, List.mem_cons, List.mem_singleton, List.not_mem_nil,
    or_false] at h
  rcases h with h | h | h | h | h | h <;>
    simp [raw.checkDependencyFileExists, h, fileTool, raw.asPointer]

theorem visit_unrecognized (E : Env) (p : String) (acc : List checker.Tool)
    (h : strings.ToLower E p ∉ recognizedPaths) :
    raw.checkDependencyFileExists E p [Arg.ptrTools acc] = ([Arg.ptrTools acc], true, none) := by
  simp only [recognizedPaths, dependabotPaths, renovatePaths, pyupPaths, scalaStewardPaths,
    List.mem_append, not_or] at h
  obtain ⟨⟨⟨h1, h2⟩, h3⟩, h4⟩ := h
  simp only [raw.checkDependencyFileExists, List.length_singleton, ne_eq, not_true_eq_false,
    if_false, if_neg h1, if_neg h2, if_neg h3, if_neg h4]

theorem visit_recognized (E : Env) (p : String) (acc : List checker.Tool)
    (h : strings.ToLower E p ∈ recognizedPaths) :
    raw.checkDependencyFileExists E p [Arg.ptrTools acc] =
      ([Arg.ptrTools (acc ++ [recordFor E p])], true, none) := by
  by_cases h1 : strings.ToLower E p ∈ dependabotPaths
  · rw [visit_dependabot E p acc h1]; simp [recordFor, toolIdentity, h1]
  by_cases h2 : strings.ToLower E p ∈ renovatePaths
  · rw [visit_renovate E p acc h2]; simp [recordFor, toolIdentity, h1, h2]
  by_cases h3 : strings.ToLower E p ∈ pyupPaths
  · rw [visit_pyup E p acc h3]; simp [recordFor, toolIdentity, h1, h2, h3]
  have h4 : strings.ToLower E p ∈ scalaStewardPaths := by
    simp only [recognizedPaths, List.mem_append] at h
    tauto
  rw [visit_scalaSteward E p acc h4]; simp [recordFor, toolIdentity, h1, h2, h3]

theorem visit_eq (E : Env) (p : String) (acc : List checker.Tool) :
    raw.checkDependencyFileExists E p [Arg.ptrTools acc] =
      ([Arg.ptrTools (acc ++ recordsFor E [p])], true, none) := by
  by_cases h : strings.ToLower E p ∈ recognizedPaths
  · rw [visit_recognized E p acc h]; simp [recordsFor, isRecognized, h]
  · rw [visit_unrecognized E p acc h]; simp [recordsFor, isRecognized, h]

theorem recordsFor_cons (E : Env) (p : String) (files : List String) :
    recordsFor E (p :: files) = recordsFor E [p] ++ recordsFor E files := by
  unfold recordsFor
  by_cases h : isRecognized E p = true <;> simp [List.filter_cons, h]

theorem recordsFor_eq_nil (E : Env) (files : List String)
    (h : ∀ p ∈ files, strings.ToLower E p ∉ recognizedPaths) : recordsFor E files = [] := by
  unfold recordsFor
  rw [List.map_eq_nil_iff, List.filter_eq_nil_iff]
  intro p hp
  simpa [isRecognized] using h p hp

theorem recordsFor_ne_nil (E : Env) (files : List String)
    (h : ∃ p ∈ files, strings.ToLower E p ∈ recognizedPaths) : recordsFor E files ≠ [] := by
  obtain ⟨p, hp, hr⟩ := h
  unfold recordsFor
  intro hnil
  rw [List.map_eq_nil_iff, List.filter_eq_nil_iff] at hnil
  exact hnil p hp (by simpa [isRecognized] using hr)

/-! ## The traversal with the file visitor -/

theorem doWhileTrue_visit (E : Env) (files : List String) (acc : List checker.Tool) :
    fileparser.doWhileTrue (raw.checkDependencyFileExists E) files [Arg.ptrTools acc] =
      ([Arg.ptrTools (acc ++ recordsFor E files)], true, none) := by
  induction files generalizing acc with
  | nil => simp [fileparser.doWhileTrue, recordsFor]
  | cons p rest ih =>
      rw [fileparser.doWhileTrue, visit_eq]
      simp only []
      rw [ih, recordsFor_cons E p rest, List.append_assoc]

theorem onAllFilesDo_visit (E : Env) (c : clients.RepoClient) (acc : List checker.Tool) :
    fileparser.OnAllFilesDo c (raw.checkDependencyFileExists E) [Arg.ptrTools acc] =
      ([Arg.ptrTools (acc ++ recordsFor E c.files)],
        c.filesErr.map (fmt.Errorf "error during ListFiles: ")) := by
  rw [fileparser.OnAllFilesDo, doWhileTrue_visit]
  cases c.filesErr <;> rfl

theorem foldl_visit (E : Env) (files : List String) (acc : List checker.Tool) :
    files.foldl (fun args name => (raw.checkDependencyFileExists E name args).1)
        [Arg.ptrTools acc] = [Arg.ptrTools (acc ++ recordsFor E files)] := by
  induction files generalizing acc with
  | nil => simp [recordsFor]
  | cons p rest ih =>
      rw [List.foldl_cons, visit_eq]
      simp only []
      rw [ih, recordsFor_cons E p rest, List.append_assoc]

theorem toLower_recognized (E : Env) (l : String) (h : l ∈ recognizedPaths) :
    strings.ToLower E l = l := by
  simp only [recognizedPaths, dependabotPaths, renovatePaths, pyupPaths, scalaStewardPaths,
    List.mem_append, List.mem_cons, List.mem_singleton, List.not_mem_nil, or_false,
    or_assoc] at h
  rcases h with h | h | h | h | h | h | h | h | h | h | h | h | h | h | h | h | h | h <;>
    subst h <;> rfl

/-! ## The commit loop -/

theorem scanCommits_found (tools : List checker.Tool) (commits : List clients.Commit)
    (h : ∃ commit ∈ commits, commit.Committer.ID = raw.dependabotID) :
    raw.scanCommits tools commits = tools ++ [commitTool] := by
  induction commits with
  | nil => simp at h
  | cons commit rest ih =>
      by_cases hc : commit.Committer.ID = raw.dependabotID
      · simp [raw.scanCommits, hc, commitTool, raw.asPointer]
      · have hrest : ∃ x ∈ rest, x.Committer.ID = raw.dependabotID := by
          obtain ⟨x, hx, hid⟩ := h
          rcases List.mem_cons.mp hx with rfl | hx
          · exact absurd hid hc
          · exact ⟨x, hx, hid⟩
        simp [raw.scanCommits, hc, ih hrest]

theorem scanCommits_absent (tools : List checker.Tool) (commits : List clients.Commit)
    (h : ∀ commit ∈ commits, commit.Committer.ID ≠ raw.dependabotID) :
    raw.scanCommits tools commits = tools := by
  induction commits with
  | nil => rfl
  | cons commit rest ih =>
      have hc : commit.Committer.ID ≠ raw.dependabotID := h commit (List.mem_cons_self _ _)
      have hrest : ∀ x ∈ rest, x.Committer.ID ≠ raw.dependabotID :=
        fun x hx => h x (List.mem_cons_of_mem _ hx)
      simp [raw.scanCommits, hc, ih hrest]

/-! ## The orchestrator, phase by phase -/

theorem dut_enumeration_failed (E : Env) (c : clients.RepoClient) (err : GoError)
    (h : c.filesErr = some err) :
    raw.DependencyUpdateTool E c =
      ({ Tools := [] }, some (fmt.Errorf "" (fmt.Errorf "error during ListFiles: " err))) := by
  simp [raw.DependencyUpdateTool, onAllFilesDo_visit, h]

theorem context_changes_message (pre msg : String) (h : 0 < pre.length) :
    pre ++ msg ≠ msg := by
  intro heq
  have hlen := congrArg String.length heq
  rw [String.length_append] at hlen
  omega

theorem dut_file_match (E : Env) (c : clients.RepoClient) (h : c.filesErr = none)
    (hne : recordsFor E c.files ≠ []) :
    raw.DependencyUpdateTool E c = ({ Tools := recordsFor E c.files }, none) := by
  simp [raw.DependencyUpdateTool, onAllFilesDo_visit, h, raw.derefTools, hne]

theorem dut_fallback (E : Env) (c : clients.RepoClient) (h : c.filesErr = none)
    (hnil : recordsFor E c.files = []) :
    raw.DependencyUpdateTool E c =
      match c.SearchCommits { Author := "dependabot[bot]" } with
      | (_, some err) =>
          if errors.Is err clients.ErrUnsupportedFeature then ({ Tools := [] }, none)
          else ({ Tools := [] }, some (fmt.Errorf "dependabot commit search: " err))
      | (commits, none) => ({ Tools := raw.scanCommits [] commits }, none) := by
  simp [raw.DependencyUpdateTool, onAllFilesDo_visit, h, raw.derefTools, hnil]

/-! ## The file visitor: statements -/

/-- C1: called with the accumulator as its single argument, the file visitor
appends a record exactly when the lower-cased path is one of the 18
recognized paths; the record carries the name, URL and description of the
group of the path (Dependabot, RenovateBot, PyUp, scala-steward), and for any
other path the accumulator is left as it was. -/
theorem visitor_appends_iff_recognized (E : Env) (p : String) (acc : List checker.Tool) :
    (strings.ToLower E p ∈ [".github/dependabot.yml", ".github/dependabot.yaml"] →
      raw.checkDependencyFileExists E p [Arg.ptrTools acc] =
        ([Arg.ptrTools (acc ++ [fileTool E "Dependabot" "https://github.com/dependabot"
            "Automated dependency updates built into GitHub" p])], true, none)) ∧
    (strings.ToLower E p ∈ ["renovate.json", "renovate.json5", ".github/renovate.json",
        ".github/renovate.json5", ".gitlab/renovate.json", ".gitlab/renovate.json5",
        ".renovaterc", ".renovaterc.json", ".renovaterc.json5"] →
      raw.checkDependencyFileExists E p [Arg.ptrTools acc] =
        ([Arg.ptrTools (acc ++ [fileTool E "RenovateBot"
            "https://github.com/renovatebot/renovate"
            "Automated dependency updates. Multi-platform and multi-language." p])],
          true, none)) ∧
    (strings.ToLower E p ∈ [".pyup.yml"] →
      raw.checkDependencyFileExists E p [Arg.ptrTools acc] =
        ([Arg.ptrTools (acc ++ [fileTool E "PyUp" "https://pyup.io/"
            "Automated dependency updates for Python." p])], true, none)) ∧
    (strings.ToLower E p ∈ [".scala-steward.conf", "scala-steward.conf",
        ".github/.scala-steward.conf", ".github/scala-steward.conf",
        ".config/.scala-steward.conf", ".config/scala-steward.conf"] →
      raw.checkDependencyFileExists E p [Arg.ptrTools acc] =
        ([Arg.ptrTools (acc ++ [fileTool E "scala-steward"
            "https://github.com/scala-steward-org/scala-steward"
            "Works with Maven, Mill, sbt, and Scala CLI." p])], true, none)) ∧
    (strings.ToLower E p ∉ recognizedPaths →
      raw.checkDependencyFileExists E p [Arg.ptrTools acc] =
        ([Arg.ptrTools acc], true, none)) ∧
    ((∃ tool, raw.derefTools (raw.checkDependencyFileExists E p [Arg.ptrTools acc]).1 =
        acc ++ [tool]) ↔ strings.ToLower E p ∈ recognizedPaths) ∧
    recognizedPaths.length = 18 ∧ recognizedPaths.Nodup := by
  refine ⟨visit_dependabot E p acc, visit_renovate E p acc, visit_pyup E p acc,
    visit_scalaSteward E p acc, visit_unrecognized E p acc, ?_, by decide, by decide⟩
  constructor
  · rintro ⟨tool, ht⟩
    by_contra hnot
    rw [visit_unrecognized E p acc hnot] at ht
    have hlen := congrArg List.length ht
    simp [raw.derefTools] at hlen
  · intro h
    exact ⟨recordFor E p, by rw [visit_recognized E p acc h]; rfl⟩

/-- C1, run on `.PyUp.yml` with an accumulator that already holds a record. -/
theorem visitor_appends_iff_recognized_witness :
    raw.checkDependencyFileExists sampleEnv ".PyUp.yml" [Arg.ptrTools [commitTool]] =
      ([Arg.ptrTools [commitTool, fileTool sampleEnv "PyUp" "https://pyup.io/"
          "Automated dependency updates for Python." ".PyUp.yml"]], true, none) :=
  (visitor_appends_iff_recognized sampleEnv ".PyUp.yml" [commitTool]).2.2.1 (by decide)

/-- C2: the comparison ignores case and the evidence keeps the caller's
casing: when the lower-cased form of `p` is recognized, the visitor appends
for `p` a record with the same name, URL and description as for the
lower-cased path, and its single evidence entry has `p` itself as path, the
source tag and the default offset (`fileTool` builds exactly such a record). -/
theorem visitor_case_insensitive (E : Env) (p : String) (acc : List checker.Tool)
    (h : strings.ToLower E p ∈ recognizedPaths) :
    ∃ name url desc,
      raw.checkDependencyFileExists E p [Arg.ptrTools acc] =
        ([Arg.ptrTools (acc ++ [fileTool E name url desc p])], true, none) ∧
      (fileTool E name url desc p).Files = [⟨p, E.FileTypeSource, E.OffsetDefault⟩] ∧
      raw.checkDependencyFileExists E (strings.ToLower E p) [Arg.ptrTools acc] =
        ([Arg.ptrTools (acc ++ [fileTool E name url desc (strings.ToLower E p)])], true, none) := by
  have hidem : strings.ToLower E (strings.ToLower E p) = strings.ToLower E p :=
    toLower_recognized E _ h
  refine ⟨(toolIdentity (strings.ToLower E p)).1, (toolIdentity (strings.ToLower E p)).2.1,
    (toolIdentity (strings.ToLower E p)).2.2, ?_, rfl, ?_⟩
  · rw [visit_recognized E p acc h]; rfl
  · rw [visit_recognized E _ acc (by rw [hidem]; exact h)]
    simp only [recordFor, fileTool, hidem]

/-- C2, run on `.GitHub/Dependabot.YML`. -/
theorem visitor_case_insensitive_witness :
    strings.ToLower sampleEnv ".GitHub/Dependabot.YML" = ".github/dependabot.yml" ∧
    ∃ name url desc,
      raw.checkDependencyFileExists sampleEnv ".GitHub/Dependabot.YML" [Arg.ptrTools []] =
        ([Arg.ptrTools ([] ++ [fileTool sampleEnv name url desc ".GitHub/Dependabot.YML"])], true, none) ∧
      (fileTool sampleEnv name url desc ".GitHub/Dependabot.YML").Files =
        [⟨".GitHub/Dependabot.YML", sampleEnv.FileTypeSource, sampleEnv.OffsetDefault⟩] ∧
      raw.checkDependencyFileExists sampleEnv
          (strings.ToLower sampleEnv ".GitHub/Dependabot.YML") [Arg.ptrTools []] =
        ([Arg.ptrTools ([] ++ [fileTool sampleEnv name url desc
            (strings.ToLower sampleEnv ".GitHub/Dependabot.YML")])], true, none) :=
  ⟨by decide, visitor_case_insensitive sampleEnv ".GitHub/Dependabot.YML" [] (by decide)⟩

/-- C3: on a well-typed call the visitor always answers "continue" with no
error, for every path; hence the traversal, which stops only on `false` or an
error, runs the visitor on every enumerated file: its outcome is the fold of
the visitor over the whole list, files after a match included. -/
theorem visitor_never_stops (E : Env) (p : String) (acc : List checker.Tool)
    (files : List String) (c : clients.RepoClient) :
    (raw.checkDependencyFileExists E p [Arg.ptrTools acc]).2 = (true, none) ∧
    fileparser.doWhileTrue (raw.checkDependencyFileExists E) files [Arg.ptrTools acc] =
      (files.foldl (fun args name => (raw.checkDependencyFileExists E name args).1)
        [Arg.ptrTools acc], true, none) ∧
    fileparser.OnAllFilesDo c (raw.checkDependencyFileExists E) [Arg.ptrTools acc] =
      (c.files.foldl (fun args name => (raw.checkDependencyFileExists E name args).1)
        [Arg.ptrTools acc], c.filesErr.map (fmt.Errorf "error during ListFiles: ")) := by
  refine ⟨by rw [visit_eq], ?_, ?_⟩
  · rw [doWhileTrue_visit, foldl_visit]
  · rw [onAllFilesDo_visit, foldl_visit]

/-! ## The orchestrator: statements -/

/-- C4: when the enumerated file list contains a recognized path, the
detection succeeds and its tools are one record per recognized file, in the
order of the list, with nothing merged. -/
theorem dut_one_record_per_file (E : Env) (files : List String)
    (search : clients.SearchCommitsOptions → List clients.Commit × Option GoError)
    (h : ∃ p ∈ files, strings.ToLower E p ∈ recognizedPaths) :
    raw.DependencyUpdateTool E ⟨files, none, search⟩ =
      ({ Tools := (files.filter fun p => decide (strings.ToLower E p ∈ recognizedPaths)).map
          (recordFor E) }, none) :=
  dut_file_match E ⟨files, none, search⟩ rfl (recordsFor_ne_nil E files h)

/-- C4, run on `.github/dependabot.yml` followed by `renovate.json`: the
result is the Dependabot record followed by the RenovateBot record. -/
theorem dut_one_record_per_file_witness :
    raw.DependencyUpdateTool sampleEnv
        ⟨[".github/dependabot.yml", "renovate.json"], none, fun _ => ([], none)⟩ =
      ({ Tools := [
          fileTool sampleEnv "Dependabot" "https://github.com/dependabot"
            "Automated dependency updates built into GitHub" ".github/dependabot.yml",
          fileTool sampleEnv "RenovateBot" "https://github.com/renovatebot/renovate"
            "Automated dependency updates. Multi-platform and multi-language."
            "renovate.json"] }, none) :=
  (dut_one_record_per_file sampleEnv [".github/dependabot.yml", "renovate.json"]
    (fun _ => ([], none)) ⟨"renovate.json", by decide, by decide⟩).trans (by decide)

/-- C5: when the file list contains a recognized path, the result does not
depend on commit search: any two commit-search behaviours give the same
result, which after a successful enumeration is the success holding only the
configuration-file records. -/
theorem dut_commit_search_irrelevant (E : Env) (files : List String)
    (filesErr : Option GoError)
    (search1 search2 : clients.SearchCommitsOptions → List clients.Commit × Option GoError)
    (h : ∃ p ∈ files, strings.ToLower E p ∈ recognizedPaths) :
    raw.DependencyUpdateTool E ⟨files, filesErr, search1⟩ =
      raw.DependencyUpdateTool E ⟨files, filesErr, search2⟩ ∧
    raw.DependencyUpdateTool E ⟨files, none, search1⟩ =
      ({ Tools := recordsFor E files }, none) := by
  refine ⟨?_, dut_file_match E ⟨files, none, search1⟩ rfl (recordsFor_ne_nil E files h)⟩
  cases filesErr with
  | some err =>
      rw [dut_enumeration_failed E ⟨files, some err, search1⟩ err rfl,
        dut_enumeration_failed E ⟨files, some err, search2⟩ err rfl]
  | none =>
      rw [dut_file_match E ⟨files, none, search1⟩ rfl (recordsFor_ne_nil E files h),
        dut_file_match E ⟨files, none, search2⟩ rfl (recordsFor_ne_nil E files h)]

/-- C5, run on a repository with `.pyup.yml`, once with a commit search that
returns a bot commit and once with one that fails. -/
theorem dut_commit_search_irrelevant_witness :
    raw.DependencyUpdateTool sampleEnv
        ⟨["README.md", ".pyup.yml"], none, fun _ => ([⟨⟨49699333⟩⟩], none)⟩ =
      raw.DependencyUpdateTool sampleEnv
        ⟨["README.md", ".pyup.yml"], none, fun _ => ([], some (GoError.new ⟨100, "boom"⟩))⟩ ∧
    raw.DependencyUpdateTool sampleEnv
        ⟨["README.md", ".pyup.yml"], none, fun _ => ([⟨⟨49699333⟩⟩], none)⟩ =
      ({ Tools := recordsFor sampleEnv ["README.md", ".pyup.yml"] }, none) :=
  dut_commit_search_irrelevant sampleEnv ["README.md", ".pyup.yml"] none
    (fun _ => ([⟨⟨49699333⟩⟩], none)) (fun _ => ([], some (GoError.new ⟨100, "boom"⟩)))
    ⟨".pyup.yml", by decide, by decide⟩

/-- C6: with no recognized file and a commit search that returns a list with
at least one commit whose committer ID is 49699333, the detection succeeds
with exactly one record, wherever and however often such commits occur: the
Dependabot identity with a single empty evidence entry. -/
theorem dut_commit_fallback (E : Env) (files : List String)
    (search : clients.SearchCommitsOptions → List clients.Commit × Option GoError)
    (commits : List clients.Commit)
    (hfiles : ∀ p ∈ files, strings.ToLower E p ∉ recognizedPaths)
    (hsearch : search { Author := "dependabot[bot]" } = (commits, none))
    (hbot : ∃ commit ∈ commits, commit.Committer.ID = 49699333) :
    raw.DependencyUpdateTool E ⟨files, none, search⟩ =
      ({ Tools := [⟨"Dependabot", some "https://github.com/dependabot",
          some "Automated dependency updates built into GitHub", [⟨"", 0, 0⟩]⟩] }, none) := by
  rw [dut_fallback E ⟨files, none, search⟩ rfl (recordsFor_eq_nil E files hfiles)]
  simp only [hsearch]
  rw [scanCommits_found [] commits hbot]
  rfl

/-- C6, run on three returned commits of which the last two are the bot's. -/
theorem dut_commit_fallback_witness :
    raw.DependencyUpdateTool sampleEnv
        ⟨["README.md"], none, fun _ => ([⟨⟨7⟩⟩, ⟨⟨49699333⟩⟩, ⟨⟨49699333⟩⟩], none)⟩ =
      ({ Tools := [⟨"Dependabot", some "https://github.com/dependabot",
          some "Automated dependency updates built into GitHub", [⟨"", 0, 0⟩]⟩] }, none) :=
  dut_commit_fallback sampleEnv ["README.md"]
    (fun _ => ([⟨⟨7⟩⟩, ⟨⟨49699333⟩⟩, ⟨⟨49699333⟩⟩], none))
    [⟨⟨7⟩⟩, ⟨⟨49699333⟩⟩, ⟨⟨49699333⟩⟩] (by decide) rfl ⟨⟨⟨49699333⟩⟩, by decide, rfl⟩

/-- C7: with no recognized file and a commit search that returns a list in
which no commit has committer ID 49699333 (the empty list included), the
detection returns no tool and no error. -/
theorem dut_no_evidence (E : Env) (files : List String)
    (search : clients.SearchCommitsOptions → List clients.Commit × Option GoError)
    (commits : List clients.Commit)
    (hfiles : ∀ p ∈ files, strings.ToLower E p ∉ recognizedPaths)
    (hsearch : search { Author := "dependabot[bot]" } = (commits, none))
    (hbot : ∀ commit ∈ commits, commit.Committer.ID ≠ 49699333) :
    raw.DependencyUpdateTool E ⟨files, none, search⟩ = ({ Tools := [] }, none) := by
  rw [dut_fallback E ⟨files, none, search⟩ rfl (recordsFor_eq_nil E files hfiles)]
  simp only [hsearch]
  rw [scanCommits_absent [] commits hbot]

/-- C7, run on a commit list that passed the author filter but carries other
committer IDs. -/
theorem dut_no_evidence_witness :
    raw.DependencyUpdateTool sampleEnv
        ⟨["README.md", "go.mod"], none, fun _ => ([⟨⟨7⟩⟩, ⟨⟨49699334⟩⟩], none)⟩ =
      ({ Tools := [] }, none) :=
  dut_no_evidence sampleEnv ["README.md", "go.mod"] (fun _ => ([⟨⟨7⟩⟩, ⟨⟨49699334⟩⟩], none))
    [⟨⟨7⟩⟩, ⟨⟨49699334⟩⟩] (by decide) rfl (by decide)

/-- C8: with no recognized file, a commit search that fails with an error
that is, or wraps, the "unsupported feature" error makes the detection return
no tool and no error. -/
theorem dut_unsupported_tolerated (E : Env) (files : List String)
    (search : clients.SearchCommitsOptions → List clients.Commit × Option GoError)
    (commits : List clients.Commit) (err : GoError)
    (hfiles : ∀ p ∈ files, strings.ToLower E p ∉ recognizedPaths)
    (hsearch : search { Author := "dependabot[bot]" } = (commits, some err))
    (hunsupported : errors.Is err clients.ErrUnsupportedFeature = true) :
    raw.DependencyUpdateTool E ⟨files, none, search⟩ = ({ Tools := [] }, none) := by
  rw [dut_fallback E ⟨files, none, search⟩ rfl (recordsFor_eq_nil E files hfiles)]
  simp only [hsearch, hunsupported, if_true]

/-- C8, run on a commit search that fails with a wrapped "unsupported
feature" error. -/
theorem dut_unsupported_tolerated_witness :
    raw.DependencyUpdateTool sampleEnv
        ⟨["README.md"], none,
          fun _ => ([], some (fmt.Errorf "local client: " (GoError.new clients.ErrUnsupportedFeature)))⟩ =
      ({ Tools := [] }, none) :=
  dut_unsupported_tolerated sampleEnv ["README.md"]
    (fun _ => ([], some (fmt.Errorf "local client: " (GoError.new clients.ErrUnsupportedFeature))))
    [] (fmt.Errorf "local client: " (GoError.new clients.ErrUnsupportedFeature)) (by decide) rfl (by decide)

/-- C9: with no recognized file, the detection returns an error exactly when
commit search fails with an error that is not (and does not wrap) the
"unsupported feature" error; the data returned with it is empty, and the
error wraps the original one behind the text `dependabot commit search: `. -/
theorem dut_commit_search_error (E : Env) (files : List String)
    (search : clients.SearchCommitsOptions → List clients.Commit × Option GoError)
    (hfiles : ∀ p ∈ files, strings.ToLower E p ∉ recognizedPaths) :
    ((raw.DependencyUpdateTool E ⟨files, none, search⟩).2 ≠ none ↔
      ∃ err, (search { Author := "dependabot[bot]" }).2 = some err ∧
        errors.Is err clients.ErrUnsupportedFeature = false) ∧
    ∀ err, (search { Author := "dependabot[bot]" }).2 = some err →
      errors.Is err clients.ErrUnsupportedFeature = false →
      ∃ wrapped, raw.DependencyUpdateTool E ⟨files, none, search⟩ =
          ({ Tools := [] }, some wrapped) ∧
        wrapped = fmt.Errorf "dependabot commit search: " err ∧
        wrapped.Error = "dependabot commit search: " ++ err.Error ∧
        wrapped.Unwrap = some err := by
  have hdut := dut_fallback E ⟨files, none, search⟩ rfl (recordsFor_eq_nil E files hfiles)
  simp only [] at hdut
  rw [hdut]
  rcases hs : search { Author := "dependabot[bot]" } with ⟨commits, _ | err⟩
  · simp
  · by_cases hu : errors.Is err clients.ErrUnsupportedFeature = true
    · simp [hu]
    · simp [hu, fmt.Errorf, GoError.Error, GoError.Unwrap]

/-- C9, run on a commit search that fails with an error that reads
`unsupported feature` but is not the sentinel: it is not tolerated. -/
theorem dut_commit_search_error_witness :
    ((raw.DependencyUpdateTool sampleEnv
        ⟨["README.md"], none, fun _ => ([], some (GoError.new ⟨100, "unsupported feature"⟩))⟩).2 ≠ none ↔
      ∃ err, ((fun _ => ([], some (GoError.new ⟨100, "unsupported feature"⟩)) :
          clients.SearchCommitsOptions → List clients.Commit × Option GoError)
            { Author := "dependabot[bot]" }).2 = some err ∧
        errors.Is err clients.ErrUnsupportedFeature = false) ∧
    ∀ err, ((fun _ => ([], some (GoError.new ⟨100, "unsupported feature"⟩)) :
          clients.SearchCommitsOptions → List clients.Commit × Option GoError)
            { Author := "dependabot[bot]" }).2 = some err →
      errors.Is err clients.ErrUnsupportedFeature = false →
      ∃ wrapped, raw.DependencyUpdateTool sampleEnv
            ⟨["README.md"], none, fun _ => ([], some (GoError.new ⟨100, "unsupported feature"⟩))⟩ =
          ({ Tools := [] }, some wrapped) ∧
        wrapped = fmt.Errorf "dependabot commit search: " err ∧
        wrapped.Error = "dependabot commit search: " ++ err.Error ∧
        wrapped.Unwrap = some err :=
  dut_commit_search_error sampleEnv ["README.md"]
    (fun _ => ([], some (GoError.new ⟨100, "unsupported feature"⟩))) (by decide)

/-- An error that reads `unsupported feature` but is another value than the
sentinel is not the sentinel for `errors.Is`, and the detection propagates it
behind the commit-search text. -/
theorem look_alike_error_propagated :
    errors.Is (GoError.new ⟨100, "unsupported feature"⟩) clients.ErrUnsupportedFeature =
      false ∧
    errors.Is (GoError.new clients.ErrUnsupportedFeature) clients.ErrUnsupportedFeature =
      true ∧
    raw.DependencyUpdateTool sampleEnv
        ⟨["README.md"], none, fun _ => ([], some (GoError.new ⟨100, "unsupported feature"⟩))⟩ =
      ({ Tools := [] }, some (GoError.wrapError
        "dependabot commit search: unsupported feature"
        (GoError.new ⟨100, "unsupported feature"⟩))) := by
  decide

/-- C10: when file enumeration fails, the detection returns the empty data
together with an error that wraps the enumeration error, whatever records the
visitor had accumulated before the failure and whatever commit search would
do. -/
theorem dut_enumeration_error (E : Env) (files : List String) (err : GoError)
    (search : clients.SearchCommitsOptions → List clients.Commit × Option GoError) :
    raw.DependencyUpdateTool E ⟨files, some err, search⟩ =
      ({ Tools := [] }, some (fmt.Errorf "" (fmt.Errorf "error during ListFiles: " err))) ∧
    (fmt.Errorf "" (fmt.Errorf "error during ListFiles: " err)).Unwrap =
      some (fmt.Errorf "error during ListFiles: " err) ∧
    (fmt.Errorf "error during ListFiles: " err).Unwrap = some err ∧
    fileparser.OnAllFilesDo ⟨files, some err, search⟩ (raw.checkDependencyFileExists E)
        [Arg.ptrTools []] =
      ([Arg.ptrTools (recordsFor E files)],
        some (fmt.Errorf "error during ListFiles: " err)) := by
  refine ⟨dut_enumeration_failed E ⟨files, some err, search⟩ err rfl, rfl, rfl, ?_⟩
  rw [onAllFilesDo_visit]
  simp

/-- An enumeration that yields `renovate.json` and then fails: the record
already accumulated is not reported, and the bot commit is not consulted. -/
theorem failed_enumeration_drops_records :
    raw.DependencyUpdateTool sampleEnv
        ⟨["renovate.json"], some (GoError.new ⟨100, "tarball truncated"⟩),
          fun _ => ([⟨⟨49699333⟩⟩], none)⟩ =
      ({ Tools := [] }, some (GoError.wrapError "error during ListFiles: tarball truncated"
        (GoError.wrapError "error during ListFiles: tarball truncated"
          (GoError.new ⟨100, "tarball truncated"⟩)))) := by
  decide

/-! ## Successful results, case by case -/

theorem mem_recordsFor (E : Env) (files : List String) (tool : checker.Tool)
    (h : tool ∈ recordsFor E files) :
    ∃ p ∈ files, strings.ToLower E p ∈ recognizedPaths ∧ tool = recordFor E p := by
  unfold recordsFor at h
  obtain ⟨p, hp, rfl⟩ := List.mem_map.mp h
  rw [List.mem_filter] at hp
  exact ⟨p, hp.1, by simpa [isRecognized] using hp.2, rfl⟩

theorem scanCommits_nil_cases (commits : List clients.Commit) :
    raw.scanCommits [] commits = [] ∨ raw.scanCommits [] commits = [commitTool] := by
  by_cases h : ∃ commit ∈ commits, commit.Committer.ID = raw.dependabotID
  · right
    rw [scanCommits_found [] commits h]
    rfl
  · left
    apply scanCommits_absent
    intro commit hc hid
    exact h ⟨commit, hc, hid⟩

theorem dut_success_cases (E : Env) (c : clients.RepoClient)
    (data : checker.DependencyUpdateToolData)
    (h : raw.DependencyUpdateTool E c = (data, none)) :
    (recordsFor E c.files ≠ [] ∧ data.Tools = recordsFor E c.files) ∨
    (recordsFor E c.files = [] ∧ (data.Tools = [] ∨ data.Tools = [commitTool])) := by
  cases hfe : c.filesErr with
  | some err =>
      rw [dut_enumeration_failed E c err hfe] at h
      simp at h
  | none =>
      by_cases hne : recordsFor E c.files = []
      · right
        refine ⟨hne, ?_⟩
        rw [dut_fallback E c hfe hne] at h
        rcases hs : c.SearchCommits { Author := "dependabot[bot]" } with ⟨commits, _ | err⟩
        · simp only [hs, Prod.mk.injEq, and_true] at h
          rw [← h]
          exact scanCommits_nil_cases commits
        · by_cases hu : errors.Is err clients.ErrUnsupportedFeature = true
          · simp only [hs, hu, if_true, Prod.mk.injEq, and_true] at h
            left
            rw [← h]
          · simp [hs, hu] at h
      · left
        refine ⟨hne, ?_⟩
        rw [dut_file_match E c hfe hne] at h
        simp only [Prod.mk.injEq, and_true] at h
        rw [← h]

theorem mem_prefixesBefore (sep : Char) (xs ys : List Char) :
    xs ∈ prefixesBefore sep (xs ++ sep :: ys) := by
  induction xs with
  | nil => simp [prefixesBefore]
  | cons x xs ih =>
      simp only [List.cons_append, prefixesBefore, List.mem_append, List.mem_map]
      exact Or.inr ⟨xs, ih, rfl⟩

theorem toLower_directory (E : Env) (d n : String)
    (h : strings.ToLower E (d ++ "/" ++ n) ∈ recognizedPaths) :
    strings.ToLower E d ∈ listedDirectories := by
  have hsplit : (strings.ToLower E (d ++ "/" ++ n)).data =
      (strings.ToLower E d).data ++ '/' :: (strings.ToLower E n).data := by
    simp [strings.ToLower, unicode.ToLower]
  have hmem : (strings.ToLower E d).data ∈
      prefixesBefore '/' (strings.ToLower E (d ++ "/" ++ n)).data := by
    rw [hsplit]
    exact mem_prefixesBefore '/' _ _
  have htable : ∀ l ∈ recognizedPaths, ∀ xs ∈ prefixesBefore '/' l.data,
      String.mk xs ∈ listedDirectories := by
    decide
  exact htable _ h _ hmem

theorem visit_ok_args (E : Env) (p : String) (args : List Arg)
    (h : (raw.checkDependencyFileExists E p args).2.2 = none) :
    ∃ acc, args = [Arg.ptrTools acc] := by
  match args with
  | [] => simp [raw.checkDependencyFileExists] at h
  | [Arg.ptrTools acc] => exact ⟨acc, rfl⟩
  | [Arg.other tag] => simp [raw.checkDependencyFileExists] at h
  | _ :: _ :: _ => simp [raw.checkDependencyFileExists] at h

theorem recordsFor_append (E : Env) (l1 l2 : List String) :
    recordsFor E (l1 ++ l2) = recordsFor E l1 ++ recordsFor E l2 := by
  simp [recordsFor, List.filter_append, List.map_append]

theorem scanFiles_eq (E : Env) (files : List String) :
    scanFiles E files = recordsFor E files := by
  simp [scanFiles, doWhileTrue_visit, raw.derefTools]

theorem wellFormed_recordFor (E : Env) (p : String) : wellFormed (recordFor E p) := by
  unfold wellFormed recordFor fileTool toolIdentity knownIdentities
  refine ⟨?_, rfl⟩
  split_ifs <;> simp

theorem recognized_ne_empty (E : Env) (p : String)
    (h : strings.ToLower E p ∈ recognizedPaths) : p ≠ "" := by
  rintro rfl
  have hempty : strings.ToLower E "" = "" := rfl
  rw [hempty] at h
  revert h
  decide

/-! ## Errors: statements -/

/-- C11: every error returned by the detection carries context that names
the phase that failed, and its message is not just the message of the
original error. An enumeration error comes back behind the text
`error during ListFiles: `, which the traversal puts in front of it (the
wrap of the detection itself adds no further text); a commit-search error
comes back behind the text `dependabot commit search: `. In both cases the
original error is reached by unwrapping. -/
theorem dut_error_wrapping (E : Env) (c : clients.RepoClient) (e : GoError)
    (h : (raw.DependencyUpdateTool E c).2 = some e) :
    (∃ err, c.filesErr = some err ∧
      e.Error = "error during ListFiles: " ++ err.Error ∧ e.Error ≠ err.Error ∧
      e.Unwrap = some (fmt.Errorf "error during ListFiles: " err) ∧
      (fmt.Errorf "error during ListFiles: " err).Unwrap = some err) ∨
    (∃ err, c.filesErr = none ∧
      (c.SearchCommits { Author := "dependabot[bot]" }).2 = some err ∧
      e.Error = "dependabot commit search: " ++ err.Error ∧ e.Error ≠ err.Error ∧
      e.Unwrap = some err) := by
  cases hfe : c.filesErr with
  | some err =>
      left
      rw [dut_enumeration_failed E c err hfe] at h
      simp only [Option.some.injEq] at h
      subst h
      have hmsg : (fmt.Errorf "" (fmt.Errorf "error during ListFiles: " err)).Error =
          "error during ListFiles: " ++ err.Error := String.empty_append _
      refine ⟨err, rfl, hmsg, ?_, rfl, rfl⟩
      rw [hmsg]
      exact context_changes_message _ _ (by decide)
  | none =>
      right
      by_cases hne : recordsFor E c.files = []
      · rw [dut_fallback E c hfe hne] at h
        rcases hs : c.SearchCommits { Author := "dependabot[bot]" } with ⟨commits, _ | err⟩
        · simp [hs] at h
        · by_cases hu : errors.Is err clients.ErrUnsupportedFeature = true
          · simp [hs, hu] at h
          · simp [hs, hu] at h
            subst h
            exact ⟨err, rfl, rfl, rfl, context_changes_message _ _ (by decide), rfl⟩
      · rw [dut_file_match E c hfe hne] at h
        simp at h

/-- C11, run on an enumeration that fails with `listing failed`: the returned
message is `error during ListFiles: listing failed`. -/
theorem dut_error_wrapping_witness :
    (raw.DependencyUpdateTool sampleEnv
        ⟨[], some (GoError.new ⟨100, "listing failed"⟩), fun _ => ([], none)⟩).2 =
      some (GoError.wrapError "error during ListFiles: listing failed"
        (GoError.wrapError "error during ListFiles: listing failed"
          (GoError.new ⟨100, "listing failed"⟩))) ∧
    ((∃ err, (⟨[], some (GoError.new ⟨100, "listing failed"⟩), fun _ => ([], none)⟩ :
          clients.RepoClient).filesErr = some err ∧
        (GoError.wrapError "error during ListFiles: listing failed"
          (GoError.wrapError "error during ListFiles: listing failed"
            (GoError.new ⟨100, "listing failed"⟩))).Error =
          "error during ListFiles: " ++ err.Error ∧
        (GoError.wrapError "error during ListFiles: listing failed"
          (GoError.wrapError "error during ListFiles: listing failed"
            (GoError.new ⟨100, "listing failed"⟩))).Error ≠ err.Error ∧
        (GoError.wrapError "error during ListFiles: listing failed"
          (GoError.wrapError "error during ListFiles: listing failed"
            (GoError.new ⟨100, "listing failed"⟩))).Unwrap =
          some (fmt.Errorf "error during ListFiles: " err) ∧
        (fmt.Errorf "error during ListFiles: " err).Unwrap = some err) ∨
     (∃ err, (⟨[], some (GoError.new ⟨100, "listing failed"⟩), fun _ => ([], none)⟩ :
          clients.RepoClient).filesErr = none ∧
        ((⟨[], some (GoError.new ⟨100, "listing failed"⟩), fun _ => ([], none)⟩ :
          clients.RepoClient).SearchCommits { Author := "dependabot[bot]" }).2 = some err ∧
        (GoError.wrapError "error during ListFiles: listing failed"
          (GoError.wrapError "error during ListFiles: listing failed"
            (GoError.new ⟨100, "listing failed"⟩))).Error =
          "dependabot commit search: " ++ err.Error ∧
        (GoError.wrapError "error during ListFiles: listing failed"
          (GoError.wrapError "error during ListFiles: listing failed"
            (GoError.new ⟨100, "listing failed"⟩))).Error ≠ err.Error ∧
        (GoError.wrapError "error during ListFiles: listing failed"
          (GoError.wrapError "error during ListFiles: listing failed"
            (GoError.new ⟨100, "listing failed"⟩))).Unwrap = some err)) :=
  ⟨by decide,
    dut_error_wrapping sampleEnv
      ⟨[], some (GoError.new ⟨100, "listing failed"⟩), fun _ => ([], none)⟩
      (GoError.wrapError "error during ListFiles: listing failed"
        (GoError.wrapError "error during ListFiles: listing failed"
          (GoError.new ⟨100, "listing failed"⟩))) (by decide)⟩

/-- C12: the visitor fails exactly when it is not given one argument that is
a pointer to a tool slice. Any other number of arguments gives the wrapped
`errInvalidArgLength`, one argument of another type gives the wrapped
`errInvalidArgType`; a failing call answers `false` and leaves the arguments
as they were, for every path. -/
theorem visitor_argument_contract (E : Env) (p : String) (args : List Arg) :
    (args.length ≠ 1 →
      raw.checkDependencyFileExists E p args =
        (args, false,
          some (fmt.Errorf "checkDependencyFileExists requires exactly one argument: "
            raw.errInvalidArgLength))) ∧
    (∀ tag, args = [Arg.other tag] →
      raw.checkDependencyFileExists E p args =
        (args, false,
          some (fmt.Errorf
            "checkDependencyFileExists requires an argument of type: *[]checker.Tool: "
            raw.errInvalidArgType))) ∧
    ((raw.checkDependencyFileExists E p args).2.2 ≠ none ↔
      ¬ ∃ acc, args = [Arg.ptrTools acc]) ∧
    ((raw.checkDependencyFileExists E p args).2.2 ≠ none →
      (raw.checkDependencyFileExists E p args).1 = args ∧
      (raw.checkDependencyFileExists E p args).2.1 = false) := by
  have hlen : args.length ≠ 1 →
      raw.checkDependencyFileExists E p args =
        (args, false,
          some (fmt.Errorf "checkDependencyFileExists requires exactly one argument: "
            raw.errInvalidArgLength)) := by
    intro h
    simp [raw.checkDependencyFileExists, h]
  have htype : ∀ tag, raw.checkDependencyFileExists E p [Arg.other tag] =
        ([Arg.other tag], false,
          some (fmt.Errorf
            "checkDependencyFileExists requires an argument of type: *[]checker.Tool: "
            raw.errInvalidArgType)) := by
    intro tag
    simp [raw.checkDependencyFileExists]
  refine ⟨hlen, ?_, ?_, ?_⟩
  · rintro tag rfl
    exact htype tag
  · match args with
    | [] => simp [hlen]
    | [Arg.ptrTools acc] => simp [visit_eq]
    | [Arg.other tag] => simp [htype]
    | _ :: _ :: _ => simp [hlen]
  · match args with
    | [] => simp [hlen]
    | [Arg.ptrTools acc] => simp [visit_eq]
    | [Arg.other tag] => simp [htype]
    | _ :: _ :: _ => simp [hlen]

/-- C12, run on a recognized path with no argument at all. -/
theorem visitor_argument_contract_witness :
    raw.checkDependencyFileExists sampleEnv "renovate.json" [] =
      ([], false,
        some (GoError.wrapError
          "checkDependencyFileExists requires exactly one argument: invalid argument length"
          (GoError.new ⟨2, "invalid argument length"⟩))) :=
  ((visitor_argument_contract sampleEnv "renovate.json" []).1 (by decide)).trans (by decide)

/-! ## Evidence entries, the commit query and the matched locations: statements -/

/-- C13 (as amended): in a successful result that comes from configuration
files, every evidence entry carries the source tag and the default offset; in
a successful result that comes from the commit fallback, the single evidence
entry of the record is the empty entry: empty path, zero tag, zero offset. -/
theorem dut_evidence_tags (E : Env) (c : clients.RepoClient)
    (data : checker.DependencyUpdateToolData)
    (h : raw.DependencyUpdateTool E c = (data, none)) :
    ((∃ p ∈ c.files, strings.ToLower E p ∈ recognizedPaths) →
      ∀ tool ∈ data.Tools, ∀ file ∈ tool.Files,
        file.Type_ = E.FileTypeSource ∧ file.Offset = E.OffsetDefault) ∧
    ((∀ p ∈ c.files, strings.ToLower E p ∉ recognizedPaths) →
      ∀ tool ∈ data.Tools, tool.Files = [⟨"", 0, 0⟩]) := by
  rcases dut_success_cases E c data h with ⟨hne, htools⟩ | ⟨hnil, htools⟩
  · constructor
    · intro _ tool ht file hf
      rw [htools] at ht
      obtain ⟨p, _, _, rfl⟩ := mem_recordsFor E c.files tool ht
      simp only [recordFor, fileTool, List.mem_singleton] at hf
      subst hf
      exact ⟨rfl, rfl⟩
    · intro hnone
      exact absurd (recordsFor_eq_nil E c.files hnone) hne
  · constructor
    · intro hsome
      exact absurd hnil (recordsFor_ne_nil E c.files hsome)
    · intro _ tool ht
      rcases htools with htools | htools
      · rw [htools] at ht
        simp at ht
      · rw [htools, List.mem_singleton] at ht
        subst ht
        rfl

/-- C13 (as amended), run on a repository without configuration files whose
commit search returns a bot commit. -/
theorem dut_evidence_tags_witness :
    ((∃ p ∈ (⟨["README.md"], none, fun _ => ([⟨⟨49699333⟩⟩], none)⟩ :
          clients.RepoClient).files, strings.ToLower sampleEnv p ∈ recognizedPaths) →
      ∀ tool ∈ (⟨[commitTool]⟩ : checker.DependencyUpdateToolData).Tools,
        ∀ file ∈ tool.Files,
          file.Type_ = sampleEnv.FileTypeSource ∧ file.Offset = sampleEnv.OffsetDefault) ∧
    ((∀ p ∈ (⟨["README.md"], none, fun _ => ([⟨⟨49699333⟩⟩], none)⟩ :
          clients.RepoClient).files, strings.ToLower sampleEnv p ∉ recognizedPaths) →
      ∀ tool ∈ (⟨[commitTool]⟩ : checker.DependencyUpdateToolData).Tools,
        tool.Files = [⟨"", 0, 0⟩]) :=
  dut_evidence_tags sampleEnv ⟨["README.md"], none, fun _ => ([⟨⟨49699333⟩⟩], none)⟩
    ⟨[commitTool]⟩ (by decide)

/-- C13 as stated fails: with the source tag and the default offset both `1`,
the evidence entry of the commit-fallback record carries neither. -/
theorem fallback_evidence_untagged :
    ¬ ∀ tool ∈ (raw.DependencyUpdateTool sampleEnv
          ⟨["README.md"], none, fun _ => ([⟨⟨49699333⟩⟩], none)⟩).1.Tools,
        ∀ file ∈ tool.Files,
          file.Type_ = sampleEnv.FileTypeSource ∧ file.Offset = sampleEnv.OffsetDefault := by
  decide

/-- C14: when no file matches, commit search is asked the query with author
`dependabot[bot]` and nothing else. The detection depends on the collaborator
only through its answer to that query (two collaborators that agree on it
give the same result), and with no recognized file the result is computed
from that answer: the commit loop over the returned commits when the answer
carries no error, the tolerated or the wrapped error otherwise. Changing only
the answer to that query, from a bot commit to no commit, changes the
result. -/
theorem dut_commit_query (E : Env) (files : List String) (filesErr : Option GoError)
    (search1 search2 : clients.SearchCommitsOptions → List clients.Commit × Option GoError)
    (hagree : search1 { Author := "dependabot[bot]" } = search2 { Author := "dependabot[bot]" }) :
    raw.DependencyUpdateTool E ⟨files, filesErr, search1⟩ =
      raw.DependencyUpdateTool E ⟨files, filesErr, search2⟩ ∧
    ((∀ p ∈ files, strings.ToLower E p ∉ recognizedPaths) →
      (∀ commits, search1 { Author := "dependabot[bot]" } = (commits, none) →
        raw.DependencyUpdateTool E ⟨files, none, search1⟩ =
          ({ Tools := raw.scanCommits [] commits }, none)) ∧
      (∀ commits err, search1 { Author := "dependabot[bot]" } = (commits, some err) →
        raw.DependencyUpdateTool E ⟨files, none, search1⟩ =
          if errors.Is err clients.ErrUnsupportedFeature then ({ Tools := [] }, none)
          else ({ Tools := [] }, some (fmt.Errorf "dependabot commit search: " err))) ∧
      raw.DependencyUpdateTool E
          ⟨files, none, Function.update search1 { Author := "dependabot[bot]" }
            ([⟨⟨49699333⟩⟩], none)⟩ = ({ Tools := [commitTool] }, none) ∧
      raw.DependencyUpdateTool E
          ⟨files, none, Function.update search1 { Author := "dependabot[bot]" }
            ([], none)⟩ = ({ Tools := [] }, none)) := by
  refine ⟨by simp only [raw.DependencyUpdateTool, onAllFilesDo_visit, hagree], ?_⟩
  intro hfiles
  have hnil := recordsFor_eq_nil E files hfiles
  refine ⟨?_, ?_, ?_, ?_⟩
  · intro commits hs
    rw [dut_fallback E ⟨files, none, search1⟩ rfl hnil]
    simp only [hs]
  · intro commits err hs
    rw [dut_fallback E ⟨files, none, search1⟩ rfl hnil]
    simp only [hs]
  · rw [dut_fallback E ⟨files, none, _⟩ rfl hnil]
    simp only [Function.update_same]
    rw [scanCommits_found [] _ ⟨⟨⟨49699333⟩⟩, List.mem_singleton.mpr rfl, rfl⟩]
    rfl
  · rw [dut_fallback E ⟨files, none, _⟩ rfl hnil]
    simp only [Function.update_same]
    rfl

/-- C14, run on two collaborators that agree on `dependabot[bot]` and differ
on every other author: both give the record of the commit fallback. -/
theorem dut_commit_query_witness :
    raw.DependencyUpdateTool sampleEnv ⟨["README.md"], none,
        fun o => if o.Author = "dependabot[bot]" then ([⟨⟨49699333⟩⟩], none)
          else ([], none)⟩ =
      raw.DependencyUpdateTool sampleEnv ⟨["README.md"], none,
        fun o => if o.Author = "dependabot[bot]" then ([⟨⟨49699333⟩⟩], none)
          else ([⟨⟨1⟩⟩], some (GoError.new ⟨100, "other query"⟩))⟩ ∧
    raw.DependencyUpdateTool sampleEnv ⟨["README.md"], none,
        fun o => if o.Author = "dependabot[bot]" then ([⟨⟨49699333⟩⟩], none)
          else ([], none)⟩ = ({ Tools := [commitTool] }, none) ∧
    raw.DependencyUpdateTool sampleEnv ⟨["README.md"], none,
        fun o => if o.Author = "dependabot[bot]" then ([], none)
          else ([⟨⟨49699333⟩⟩], none)⟩ = ({ Tools := [] }, none) :=
  ⟨(dut_commit_query sampleEnv ["README.md"] none
      (fun o => if o.Author = "dependabot[bot]" then ([⟨⟨49699333⟩⟩], none) else ([], none))
      (fun o => if o.Author = "dependabot[bot]" then ([⟨⟨49699333⟩⟩], none)
        else ([⟨⟨1⟩⟩], some (GoError.new ⟨100, "other query"⟩)))
      (by decide)).1, by decide, by decide⟩

/-- C15 (as amended): a configuration file is detected at the listed
locations only. The file `d/n` makes the visitor append a record exactly when
its whole lower-cased path is a recognized path, and that requires the
lower-cased `d` to be `.github`, `.gitlab` or `.config`; under any other
directory the accumulator is left as it was. -/
theorem visitor_matches_whole_path (E : Env) (d n : String) (acc : List checker.Tool) :
    ((∃ tool, raw.derefTools
        (raw.checkDependencyFileExists E (d ++ "/" ++ n) [Arg.ptrTools acc]).1 =
          acc ++ [tool]) ↔ strings.ToLower E (d ++ "/" ++ n) ∈ recognizedPaths) ∧
    (strings.ToLower E (d ++ "/" ++ n) ∈ recognizedPaths →
      strings.ToLower E d ∈ [".github", ".gitlab", ".config"]) ∧
    (strings.ToLower E d ∉ [".github", ".gitlab", ".config"] →
      raw.checkDependencyFileExists E (d ++ "/" ++ n) [Arg.ptrTools acc] =
        ([Arg.ptrTools acc], true, none)) := by
  refine ⟨?_, toLower_directory E d n, ?_⟩
  · constructor
    · rintro ⟨tool, ht⟩
      by_contra hnot
      rw [visit_unrecognized E _ acc hnot] at ht
      have hlen := congrArg List.length ht
      simp [raw.derefTools] at hlen
    · intro h
      exact ⟨recordFor E (d ++ "/" ++ n), by rw [visit_recognized E _ acc h]; rfl⟩
  · intro hd
    exact visit_unrecognized E _ acc (fun h => hd (toLower_directory E d n h))

/-- C15 (as amended), run on `subproject/renovate.json`. -/
theorem visitor_matches_whole_path_witness :
    raw.checkDependencyFileExists sampleEnv ("subproject" ++ "/" ++ "renovate.json")
        [Arg.ptrTools []] = ([Arg.ptrTools []], true, none) :=
  (visitor_matches_whole_path sampleEnv "subproject" "renovate.json" []).2.2 (by decide)

/-- C15 as stated fails: the traversal of `subproject/renovate.json` and
`services/api/.pyup.yml` accumulates no record. -/
theorem nested_config_not_reported :
    scanFiles sampleEnv ["subproject/renovate.json", "services/api/.pyup.yml"] = [] := by
  decide

/-! ## Frame, order and shape of the results: statements -/

/-- C16: a successful call of the visitor only appends. The arguments were a
single accumulator `acc`, and afterwards the accumulator is `acc` itself when
the path is not recognized, or `acc` followed by exactly one new record when
it is; nothing that was there is removed, moved or changed. -/
theorem visitor_only_appends (E : Env) (p : String) (args args1 : List Arg) (cont : Bool)
    (h : raw.checkDependencyFileExists E p args = (args1, cont, none)) :
    ∃ acc, args = [Arg.ptrTools acc] ∧
      ((strings.ToLower E p ∉ recognizedPaths ∧ args1 = [Arg.ptrTools acc]) ∨
       (strings.ToLower E p ∈ recognizedPaths ∧
         ∃ tool, args1 = [Arg.ptrTools (acc ++ [tool])])) := by
  obtain ⟨acc, rfl⟩ := visit_ok_args E p args (by rw [h])
  refine ⟨acc, rfl, ?_⟩
  by_cases hr : strings.ToLower E p ∈ recognizedPaths
  · right
    rw [visit_recognized E p acc hr] at h
    exact ⟨hr, recordFor E p, (congrArg Prod.fst h).symm⟩
  · left
    rw [visit_unrecognized E p acc hr] at h
    exact ⟨hr, (congrArg Prod.fst h).symm⟩

/-- C16, run on `.renovaterc` with an accumulator that holds one record. -/
theorem visitor_only_appends_witness :
    ∃ acc, [Arg.ptrTools [commitTool]] = [Arg.ptrTools acc] ∧
      ((strings.ToLower sampleEnv ".renovaterc" ∉ recognizedPaths ∧
          [Arg.ptrTools [commitTool, recordFor sampleEnv ".renovaterc"]] =
            [Arg.ptrTools acc]) ∨
       (strings.ToLower sampleEnv ".renovaterc" ∈ recognizedPaths ∧
         ∃ tool, [Arg.ptrTools [commitTool, recordFor sampleEnv ".renovaterc"]] =
           [Arg.ptrTools (acc ++ [tool])])) :=
  visitor_only_appends sampleEnv ".renovaterc" [Arg.ptrTools [commitTool]]
    [Arg.ptrTools [commitTool, recordFor sampleEnv ".renovaterc"]] true (by decide)

/-- C17: scanning is a list homomorphism. The records accumulated over
`l1 ++ l2` are those of `l1` followed by those of `l2`, and the records of a
permutation of a file list are a permutation of the records of the list. -/
theorem scan_homomorphism (E : Env) (l1 l2 : List String) :
    scanFiles E (l1 ++ l2) = scanFiles E l1 ++ scanFiles E l2 ∧
    (l1.Perm l2 → (scanFiles E l1).Perm (scanFiles E l2)) := by
  constructor
  · rw [scanFiles_eq, scanFiles_eq, scanFiles_eq, recordsFor_append]
  · intro hperm
    rw [scanFiles_eq, scanFiles_eq]
    exact (hperm.filter (isRecognized E)).map (recordFor E)

/-- C17, run on two orders of the same three files. -/
theorem scan_homomorphism_witness :
    (scanFiles sampleEnv ["renovate.json", "README.md", ".pyup.yml"]).Perm
      (scanFiles sampleEnv [".pyup.yml", "renovate.json", "README.md"]) :=
  (scan_homomorphism sampleEnv ["renovate.json", "README.md", ".pyup.yml"]
    [".pyup.yml", "renovate.json", "README.md"]).2 (by decide)

/-- C18: every record of a successful result is well formed: its name, URL
and description are one of the four identities and it has exactly one
evidence entry. A result of the commit fallback has at most one record, whose
evidence path is empty; every record that comes from a file match has a
non-empty evidence path. -/
theorem dut_tools_well_formed (E : Env) (c : clients.RepoClient)
    (data : checker.DependencyUpdateToolData)
    (h : raw.DependencyUpdateTool E c = (data, none)) :
    (∀ tool ∈ data.Tools, wellFormed tool) ∧
    ((∀ p ∈ c.files, strings.ToLower E p ∉ recognizedPaths) →
      data.Tools.length ≤ 1 ∧ ∀ tool ∈ data.Tools, ∀ file ∈ tool.Files, file.Path = "") ∧
    ((∃ p ∈ c.files, strings.ToLower E p ∈ recognizedPaths) →
      ∀ tool ∈ data.Tools, ∀ file ∈ tool.Files, file.Path ≠ "") := by
  rcases dut_success_cases E c data h with ⟨hne, htools⟩ | ⟨hnil, htools⟩
  · refine ⟨?_, ?_, ?_⟩
    · intro tool ht
      rw [htools] at ht
      obtain ⟨p, _, _, rfl⟩ := mem_recordsFor E c.files tool ht
      exact wellFormed_recordFor E p
    · intro hnone
      exact absurd (recordsFor_eq_nil E c.files hnone) hne
    · intro _ tool ht file hf
      rw [htools] at ht
      obtain ⟨p, _, hr, rfl⟩ := mem_recordsFor E c.files tool ht
      simp only [recordFor, fileTool, List.mem_singleton] at hf
      subst hf
      exact recognized_ne_empty E p hr
  · refine ⟨?_, ?_, ?_⟩
    · intro tool ht
      rcases htools with htools | htools
      · rw [htools] at ht
        simp at ht
      · rw [htools, List.mem_singleton] at ht
        subst ht
        exact ⟨by simp [commitTool, knownIdentities], rfl⟩
    · intro _
      rcases htools with htools | htools
      · rw [htools]
        simp
      · rw [htools]
        refine ⟨by simp, ?_⟩
        intro tool ht file hf
        rw [List.mem_singleton] at ht
        subst ht
        simp only [commitTool, List.mem_singleton] at hf
        subst hf
        rfl
    · intro hsome
      exact absurd hnil (recordsFor_ne_nil E c.files hsome)

/-- C18, run on a repository with `.pyup.yml`. -/
theorem dut_tools_well_formed_witness :
    (∀ tool ∈ (⟨[recordFor sampleEnv ".pyup.yml"]⟩ : checker.DependencyUpdateToolData).Tools,
      wellFormed tool) ∧
    ((∀ p ∈ (⟨[".pyup.yml"], none, fun _ => ([], none)⟩ : clients.RepoClient).files,
        strings.ToLower sampleEnv p ∉ recognizedPaths) →
      (⟨[recordFor sampleEnv ".pyup.yml"]⟩ : checker.DependencyUpdateToolData).Tools.length ≤ 1 ∧
      ∀ tool ∈ (⟨[recordFor sampleEnv ".pyup.yml"]⟩ : checker.DependencyUpdateToolData).Tools,
        ∀ file ∈ tool.Files, file.Path = "") ∧
    ((∃ p ∈ (⟨[".pyup.yml"], none, fun _ => ([], none)⟩ : clients.RepoClient).files,
        strings.ToLower sampleEnv p ∈ recognizedPaths) →
      ∀ tool ∈ (⟨[recordFor sampleEnv ".pyup.yml"]⟩ : checker.DependencyUpdateToolData).Tools,
        ∀ file ∈ tool.Files, file.Path ≠ "") :=
  dut_tools_well_formed sampleEnv ⟨[".pyup.yml"], none, fun _ => ([], none)⟩
    ⟨[recordFor sampleEnv ".pyup.yml"]⟩ (by decide)
